import Mathlib

/-!
Shallow embedding of the aiswarm OpenAI driver (src/driver.openai.js and
src/run.js, streaming revision) and proofs about its documented behaviour.

The Driver part models the per-agent serialization logic of
`OpenAIDriver`: the `instruct` guard, the FIFO message queue, the
processing set, the availability flag and the reactions to the active
Run's terminal events.  The Run part models the `#process` event loop of
`Run`: message assembly from streamed deltas, terminal event emission and
tool-call handling.
-/

namespace AiswarmOpenAI

/-- Message lifecycle status, mirroring `Message.state` of the
orchestrator as used by the driver (`queued`, `processing`, `complete`,
`error`, `cancelled`); `created` is the state of a message the host just
built and has not yet handed to `instruct`. -/
inductive MsgStatus where
  | created
  | queued
  | processing
  | complete
  | error
  | cancelled
deriving DecidableEq, Repr

/-- A host message as the driver sees it: a stable id and a mutable
status (content and metadata play no role in the driver's control flow). -/
structure Msg where
  id : Nat
  status : MsgStatus
deriving DecidableEq, Repr

/-- The driver-side view of an active `Run`: the list of messages
attached to it via `addMessage`, in attachment order, and the run's
`#status` field (a fresh `Run` starts with status `"queued"`). -/
structure DriverRun where
  attached : List Msg
  status : String
deriving DecidableEq, Repr

/-- The mutable state of an `OpenAIDriver`: the nullable active-Run slot
`#run`, the FIFO `#messageQueue`, the `#messagesProcessing` set and the
`#available` flag. -/
structure DriverState where
  run : Option DriverRun
  messageQueue : List Msg
  messagesProcessing : List Msg
  available : Bool
deriving DecidableEq, Repr

/-- `OpenAIDriver.instruct(message)` (src/driver.openai.js lines 127-185).
If a Run is active or the driver is unavailable, the message is pushed on
the queue with status `queued` and nothing else changes.  Otherwise the
message is marked `processing`, a fresh Run is created, every still-queued
message is shifted off the queue (marked `processing`, pushed on the
processing set and attached to the Run via `addMessage`), and finally the
triggering message itself is attached last, after the drained queue. -/
def instruct (s : DriverState) (m : Msg) : DriverState :=
  if s.run.isSome || !s.available then
    { s with messageQueue := s.messageQueue ++ [{ m with status := .queued }] }
  else
    let trigger : Msg := { m with status := .processing }
    let drained : List Msg :=
      s.messageQueue.map (fun q => { q with status := .processing })
    { s with
      run := some { attached := drained ++ [trigger], status := "queued" }
      messageQueue := []
      messagesProcessing := s.messagesProcessing ++ [trigger] ++ drained }

/-- The driver's handler for the Run's `complete` event: the processing
set is marked complete and cleared, the active-Run slot is cleared, and
if the queue is non-empty its head is shifted off and passed to
`instruct` to start the next Run. -/
def onRunComplete (s : DriverState) : DriverState :=
  let s1 : DriverState := { s with messagesProcessing := [], run := none }
  match s1.messageQueue with
  | [] => s1
  | m :: rest => instruct { s1 with messageQueue := rest } m

/-- The driver's handler for the Run's `error` event: in-flight messages
are marked errored and cleared, the slot is cleared, and the queue head
(if any) is shifted off and re-instructed, exactly as on `complete`. -/
def onRunError (s : DriverState) : DriverState :=
  let s1 : DriverState := { s with messagesProcessing := [], run := none }
  match s1.messageQueue with
  | [] => s1
  | m :: rest => instruct { s1 with messageQueue := rest } m

/-- The driver's handler for the Run's `cancelled` event: in-flight
messages are marked cancelled and cleared and the slot is cleared, but
the queue is NOT drained. -/
def onRunCancelled (s : DriverState) : DriverState :=
  { s with messagesProcessing := [], run := none }

/-- `OpenAIDriver.status` (src/driver.openai.js lines 107-121): no run
and a non-empty queue is `queued`; no run and an empty queue is `idle`;
an active run whose status is `failed` is `error`; otherwise `busy` when
available and `paused` when not. -/
def driverStatus (s : DriverState) : String :=
  match s.run with
  | none => if s.messageQueue.length ≠ 0 then "queued" else "idle"
  | some r =>
    if r.status = "failed" then "error"
    else if s.available then "busy"
    else "paused"

/-- The same derived status written following the spec sentence word for
word, case by case in the spec's order: `queued` if no active Run but
queue non-empty; `idle` if no active Run and empty queue; `error` if the
active Run's last known status is failure; `busy` if an active Run exists
and the Driver is available; `paused` if an active Run exists but the
Driver is unavailable. -/
def driverStatusSpec (s : DriverState) : String :=
  if s.run = none ∧ s.messageQueue ≠ [] then "queued"
  else if s.run = none ∧ s.messageQueue = [] then "idle"
  else if (∃ r, s.run = some r ∧ r.status = "failed") then "error"
  else if s.run ≠ none ∧ s.available = true then "busy"
  else "paused"

/-- A driver with an active Run, an empty queue and availability on. -/
def sBusy : DriverState :=
  { run := some { attached := [⟨0, .processing⟩], status := "queued" }
    messageQueue := []
    messagesProcessing := [⟨0, .processing⟩]
    available := true }

/-- A driver with no active Run, an empty queue and availability on. -/
def sIdle : DriverState :=
  { run := none, messageQueue := [], messagesProcessing := [], available := true }

lemma instruct_enqueue_of_blocked (s : DriverState) (m : Msg)
    (h : s.run.isSome = true ∨ s.available = false) :
    instruct s m =
      { s with messageQueue := s.messageQueue ++ [{ m with status := .queued }] } := by
  unfold instruct
  rcases h with h | h
  · simp [h]
  · simp [h]

lemma foldl_instruct_blocked (s : DriverState) (ms : List Msg)
    (h : s.run.isSome = true ∨ s.available = false) :
    (ms.foldl instruct s).run = s.run ∧
    (ms.foldl instruct s).messageQueue =
      s.messageQueue ++ ms.map (fun x => { x with status := MsgStatus.queued }) ∧
    (ms.foldl instruct s).available = s.available := by
  induction ms generalizing s with
  | nil => simp
  | cons a as ih =>
    have hstep := instruct_enqueue_of_blocked s a h
    have h' : (instruct s a).run.isSome = true ∨ (instruct s a).available = false := by
      rw [hstep]; exact h
    have := ih (instruct s a) h'
    rcases this with ⟨h1, h2, h3⟩
    refine ⟨?_, ?_, ?_⟩
    · simpa [hstep] using h1
    · rw [List.foldl_cons, h2, hstep]
      simp
    · simpa [hstep] using h3

/-- Claim C1: for every driver state and every sequence of `instruct`
calls, while a Run is live (or the driver is unavailable) every call only
appends its message to the queue, leaving the active-Run slot and the
availability flag untouched; and a call that changes the active-Run slot
can only have happened with the slot empty and the driver available — so
the driver holds at most one live Run at every instant. -/
theorem instruct_at_most_one_run (s : DriverState) (ms : List Msg) (m : Msg) :
    ((s.run.isSome = true ∨ s.available = false) →
      (ms.foldl instruct s).run = s.run ∧
      (ms.foldl instruct s).messageQueue =
        s.messageQueue ++ ms.map (fun x => { x with status := MsgStatus.queued }) ∧
      (ms.foldl instruct s).available = s.available) ∧
    ((instruct s m).run ≠ s.run → s.run = none ∧ s.available = true) := by
  constructor
  · exact fun h => foldl_instruct_blocked s ms h
  · intro hch
    by_cases hb : s.run.isSome = true ∨ s.available = false
    · exact absurd (by rw [instruct_enqueue_of_blocked s m hb]) hch
    · push_neg at hb
      have hav : s.available = true := by
        cases hv : s.available with
        | false => exact absurd hv hb.2
        | true => rfl
      have hrn : s.run = none := by
        cases hr : s.run with
        | none => rfl
        | some r => exact absurd (by rw [hr]; rfl) hb.1
      exact ⟨hrn, hav⟩

/-- Witness for C1: with a live Run, two `instruct` calls only enqueue
both messages in order; and starting from the idle available state a run
creation is indeed only possible because the slot was empty and the
driver available. -/
theorem instruct_at_most_one_run_witness :
    ((([⟨1, .created⟩, ⟨2, .created⟩] : List Msg).foldl instruct sBusy).run = sBusy.run ∧
     (([⟨1, .created⟩, ⟨2, .created⟩] : List Msg).foldl instruct sBusy).messageQueue =
       sBusy.messageQueue ++
         ([⟨1, .created⟩, ⟨2, .created⟩] : List Msg).map
           (fun x => { x with status := MsgStatus.queued }) ∧
     (([⟨1, .created⟩, ⟨2, .created⟩] : List Msg).foldl instruct sBusy).available =
       sBusy.available) ∧
    (sIdle.run = none ∧ sIdle.available = true) :=
  ⟨(instruct_at_most_one_run sBusy [⟨1, .created⟩, ⟨2, .created⟩] ⟨3, .created⟩).1
      (Or.inl (by decide)),
   (instruct_at_most_one_run sIdle [] ⟨3, .created⟩).2 (by decide)⟩

/-- Claim C2 (evaluation at the failing input): two messages queued in
call order while a Run is active are attached to the next Run in the
order second-then-first, because the complete handler shifts the queue
head and passes it to `instruct`, which attaches the remaining queue
before the triggering message.  The claimed FIFO order would be
first-then-second. -/
theorem drain_reorders_queue :
    (onRunComplete (instruct (instruct sBusy ⟨1, .created⟩) ⟨2, .created⟩)).run =
      some { attached := [⟨2, .processing⟩, ⟨1, .processing⟩], status := "queued" } ∧
    (instruct (instruct sBusy ⟨1, .created⟩) ⟨2, .created⟩).messageQueue =
      [⟨1, .queued⟩, ⟨2, .queued⟩] := by
  constructor <;> rfl

/-- Claim C8: the driver's derived `status` property agrees, on every
driver state, with the case analysis given by the spec — `queued` with no
active Run and a non-empty queue, `idle` with no active Run and an empty
queue, `error` when the active Run's last known status is `failed`,
`busy` with an active Run and an available driver, `paused` with an
active Run and an unavailable driver. -/
theorem driverStatus_eq_spec (s : DriverState) :
    driverStatus s = driverStatusSpec s := by
  cases hr : s.run with
  | none =>
    cases hq : s.messageQueue with
    | nil => simp [driverStatus, driverStatusSpec, hr, hq]
    | cons a as => simp [driverStatus, driverStatusSpec, hr, hq]
  | some r =>
    by_cases hf : r.status = "failed"
    · simp [driverStatus, driverStatusSpec, hr, hf]
    · cases hv : s.available with
      | false =>
        simp [driverStatus, driverStatusSpec, hr, hf, hv]
      | true =>
        simp [driverStatus, driverStatusSpec, hr, hf, hv]

/-- One function tool call inside a `requires_action` payload:
`toolCall.id`, `toolCall.type` and the `name` and JSON-encoded
`arguments` of `toolCall.function`. -/
structure ToolCall where
  id : String
  type : String
  fname : String
  fargs : String
deriving DecidableEq, Repr

/-- The `required_action` part of a `thread.run.requires_action` payload:
its kind, the run id and the `submit_tool_outputs.tool_calls` batch. -/
structure RequiredAction where
  actionType : String
  runId : String
  toolCalls : List ToolCall
deriving DecidableEq, Repr

/-- One payload of a `thread.message.delta` event: the
`data.delta.content` array, each entry reduced to its `text.value`. -/
abbrev DeltaContent := List String

/-- A payload of the lifecycle stream consumed by `Run.#process`, one
constructor per `case` label of its `switch`; the trace-level ignored
group (`thread.run.queued`, the step events, `thread.message.incomplete`,
`thread.message.in_progress`, ...) keeps `thread.run.in_progress`
separate because the run status claims single it out, and collapses the
rest into `ignoredEvent`. -/
inductive OAIEvent where
  | runCreated (runId : String)
  | runInProgress
  | ignoredEvent
  | runCompleted
  | runCancelled
  | messageCreated
  | messageDelta (content : DeltaContent)
  | messageCompleted
  | runRequiresAction (action : RequiredAction)
  | runFailed (lastError : Option String)
  | runExpired (lastError : Option String)
  | errorEvent (message : String)
  | endEvent
  | unknownEvent (name : String)
deriving DecidableEq, Repr

/-- A log line, keeping only the level and the leading text the source
passes to the logger. -/
inductive LogEntry where
  | traceL (text : String)
  | debugL (text : String)
  | warnL (text : String)
  | errorL (text : String)
deriving DecidableEq, Repr

/-- An emission through the Run's event-emitter contract: `complete`
with the assembled output batch, `cancelled`, or `error` with the error
message. -/
inductive RunEmit where
  | complete (messages : List String)
  | cancelled
  | error (message : String)
deriving DecidableEq, Repr

/-- One submitted tool output: the `tool_call_id` and the stringified
output, which is either the skill's result or the `{error: <reason>}`
object built when the skill threw. -/
inductive ToolOutputPayload where
  | ok (value : String)
  | err (reason : String)
deriving DecidableEq, Repr

/-- An entry of the `tool_outputs` batch handed to
`submitToolOutputsStream`. -/
structure ToolOutput where
  tool_call_id : String
  output : ToolOutputPayload
deriving DecidableEq, Repr

/-- The host skill registry as the Run sees it:
`execute(name, args, agentName)` either returns a result or throws,
modelled as `Except` with the thrown error's message. -/
abbrev Skills := String → String → Except String String

/-- `Run.#handleFunction` (src/run.js lines 223-233): execute the named
skill and return its result, catching a throw independently and turning
it into an `{error: e.message}` payload. -/
def handleFunction (skills : Skills) (name args : String) : ToolOutputPayload :=
  match skills name args with
  | .ok v => .ok v
  | .error e => .err e

/-- The state threaded through `Run.#process`: the recorded run id, the
`#status` field (initialized to `queued` and read by the driver), the
store of all messages created so far with `currentMessage` an index into
it (the JS variable is a reference to the open message object), the
`#messages` batch as indices into the store, the emitted events, the
submitted tool-output batches, the log, and whether the loop has
returned (`halted`) or thrown (`crashed`). -/
structure RunProcState where
  runId : Option String
  status : String
  msgStore : List String
  currentMessage : Option Nat
  batch : List Nat
  emitted : List RunEmit
  submitted : List (List ToolOutput)
  logs : List LogEntry
  halted : Bool
  crashed : Bool
deriving DecidableEq, Repr

/-- The state of a `Run` before any lifecycle payload is consumed. -/
def initRunState : RunProcState :=
  { runId := none, status := "queued", msgStore := [], currentMessage := none
    batch := [], emitted := [], submitted := [], logs := [], halted := false
    crashed := false }

/-- `Run.#onComplete` (src/run.js lines 180-184): emit `complete` with
the whole `#messages` batch, then clear the batch. -/
def onComplete (s : RunProcState) : RunProcState :=
  { s with
    emitted := s.emitted ++ [.complete (s.batch.map (fun i => s.msgStore.getD i ""))]
    batch := [] }

/-- The `thread.message.delta` arm of `Run.#process` (src/run.js lines
112-121): warn when the content array carries more than one fragment;
if no message is currently open, log the protocol violation and drop the
delta; otherwise append the first fragment (only) to the open message.
An empty content array with an open message makes the source throw on
`content[0].text`, modelled by the `crashed` flag. -/
def handleDelta (s : RunProcState) (content : DeltaContent) : RunProcState :=
  let s1 :=
    if content.length > 1 then
      { s with logs := s.logs ++ [.warnL "Unexpected content length"] }
    else s
  match s1.currentMessage with
  | none =>
    { s1 with logs := s1.logs ++ [.errorL "Received message delta without a message"] }
  | some i =>
    match content with
    | [] => { s1 with halted := true, crashed := true }
    | c :: _ => { s1 with msgStore := s1.msgStore.set i (s1.msgStore.getD i "" ++ c) }

/-- The per-call loop of `Run.#onActionRequired` (src/run.js lines
204-216): a `function` tool call contributes one output keyed by its id,
any other kind only contributes a warning. -/
def processToolCalls (skills : Skills) : List ToolCall → List ToolOutput × List LogEntry
  | [] => ([], [])
  | tc :: rest =>
    let (outs, lgs) := processToolCalls skills rest
    if tc.type = "function" then
      ({ tool_call_id := tc.id, output := handleFunction skills tc.fname tc.fargs } :: outs, lgs)
    else
      (outs, .warnL "OpenAI run requires action but tool call type is unknown" :: lgs)

/-- `Run.#onActionRequired` (src/run.js lines 191-220): bail out with a
log when the action kind is not `submit_tool_outputs` or the batch is
empty; otherwise build one output per function tool call, submit the
batch in one call, and resume consuming the fresh stream (the recursive
`#process` starts with no message open). -/
def onActionRequired (skills : Skills) (s : RunProcState) (a : RequiredAction) :
    RunProcState :=
  if a.actionType ≠ "submit_tool_outputs" then
    { s with logs := s.logs ++ [.debugL "OpenAI run requires action but action type is unknown"] }
  else if a.toolCalls.isEmpty then
    { s with logs := s.logs ++ [.warnL "OpenAI run requires action but no tool calls found"] }
  else
    let (outs, lgs) := processToolCalls skills a.toolCalls
    { s with
      submitted := s.submitted ++ [outs]
      logs := s.logs ++ lgs
      currentMessage := none }

/-- One iteration of the `for await` loop of `Run.#process` (src/run.js
lines 81-140): dispatch on the payload's event tag.  `runCompleted` and
`runCancelled` fall through to the next payload, while the failure arms
and `endEvent` return from the loop (`halted`). -/
def stepEvent (skills : Skills) (s : RunProcState) (e : OAIEvent) : RunProcState :=
  if s.halted then s
  else
    match e with
    | .runCreated rid => { s with runId := some rid }
    | .runInProgress =>
      { s with logs := s.logs ++ [.traceL "Unhandled/Ignored Streaming Event: "] }
    | .ignoredEvent =>
      { s with logs := s.logs ++ [.traceL "Unhandled/Ignored Streaming Event: "] }
    | .runCompleted => onComplete s
    | .runCancelled =>
      { s with
        logs := s.logs ++ [.debugL "Cancelled current OpenAI run"]
        emitted := s.emitted ++ [.cancelled] }
    | .messageCreated =>
      { s with
        msgStore := s.msgStore ++ [""]
        currentMessage := some s.msgStore.length
        batch := s.batch ++ [s.msgStore.length] }
    | .messageDelta content => handleDelta s content
    | .messageCompleted => { s with currentMessage := none }
    | .runRequiresAction a => onActionRequired skills s a
    | .runFailed lastError =>
      { s with
        emitted := s.emitted ++ [.error (lastError.getD "run failure payload")]
        halted := true }
    | .runExpired lastError =>
      { s with
        emitted := s.emitted ++ [.error (lastError.getD "run failure payload")]
        halted := true }
    | .errorEvent msg =>
      { s with emitted := s.emitted ++ [.error msg], halted := true }
    | .endEvent => { onComplete s with halted := true }
    | .unknownEvent _ => s

/-- `Run.#process` over a whole lifecycle payload sequence. -/
def processEvents (skills : Skills) (s : RunProcState) (evs : List OAIEvent) :
    RunProcState :=
  evs.foldl (stepEvent skills) s

/-- A skill registry with no skills, for runs whose lifecycle never
reaches a tool call. -/
def noSkills : Skills := fun _ _ => .error "unknown skill"

/-- A demo skill registry: `good` returns `42`, everything else throws
with reason `boom`. -/
def demoSkills : Skills := fun name _ =>
  if name = "good" then .ok "42" else .error "boom"

/-- A `requires_action` payload with two function tool calls, the first
against the succeeding skill and the second against the throwing one. -/
def demoAction : RequiredAction :=
  { actionType := "submit_tool_outputs"
    runId := "run_1"
    toolCalls :=
      [ { id := "call_1", type := "function", fname := "good", fargs := "x" }
      , { id := "call_2", type := "function", fname := "bad", fargs := "y" } ] }

/-- True on warning-level log lines. -/
def isWarn : LogEntry → Bool
  | .warnL _ => true
  | _ => false

/-- True on the payloads whose `#process` arm emits a terminal event:
`thread.run.completed`, `thread.run.cancelled`, `thread.run.failed`,
`thread.run.expired`, `error` and `end`. -/
def isTerminalSignal : OAIEvent → Bool
  | .runCompleted => true
  | .runCancelled => true
  | .runFailed _ => true
  | .runExpired _ => true
  | .errorEvent _ => true
  | .endEvent => true
  | _ => false

/-- Claim C3: the lifecycle sequence message-created, delta a, delta b,
message-completed assembles exactly one output message with content ab
and emits nothing until run completion; appending the run-completed
payload emits the single batch containing that one message. -/
theorem one_message_emitted_at_completion :
    (processEvents noSkills initRunState
      [.messageCreated, .messageDelta ["a"], .messageDelta ["b"],
       .messageCompleted]).emitted = [] ∧
    (processEvents noSkills initRunState
      [.messageCreated, .messageDelta ["a"], .messageDelta ["b"],
       .messageCompleted]).msgStore = ["ab"] ∧
    (processEvents noSkills initRunState
      [.messageCreated, .messageDelta ["a"], .messageDelta ["b"],
       .messageCompleted, .runCompleted]).emitted = [.complete ["ab"]] := by
  refine ⟨rfl, rfl, rfl⟩

/-- Claim C5: a delta arriving while no message is open only logs the
protocol violation (after the possible length warning): the message
store, the batch, the emissions, the submissions and the halted flag are
all untouched, so nothing is appended, nothing partial is emitted, the
Run does not crash and subsequent payloads are still processed. -/
theorem delta_without_open_message (skills : Skills) (s : RunProcState)
    (c : DeltaContent) (hopen : s.currentMessage = none) (hrun : s.halted = false) :
    stepEvent skills s (.messageDelta c) =
      { s with logs :=
          (s.logs ++ (if c.length > 1 then [.warnL "Unexpected content length"] else []))
            ++ [.errorL "Received message delta without a message"] } := by
  by_cases hl : c.length > 1
  · simp [stepEvent, handleDelta, hrun, hopen, hl]
  · simp [stepEvent, handleDelta, hrun, hopen, hl]

/-- Witness for C5: from the initial run state, a one-fragment delta
with no open message leaves everything but the log unchanged. -/
theorem delta_without_open_message_witness :
    stepEvent noSkills initRunState (.messageDelta ["x"]) =
      { initRunState with
          logs := [.errorL "Received message delta without a message"] } := by
  exact delta_without_open_message noSkills initRunState ["x"] rfl rfl

/-- In-order concatenation of a list of text fragments. -/
def concatAll : List String → String
  | [] => ""
  | a :: l => a ++ concatAll l

lemma strAppend_assoc (a b c : String) : a ++ b ++ c = a ++ (b ++ c) :=
  String.ext (by simp)

lemma strEmpty_append (s : String) : "" ++ s = s :=
  String.ext (by simp)

lemma getD_concat_self (pre : List String) (cur : String) :
    (pre ++ [cur]).getD pre.length "" = cur := by
  induction pre with
  | nil => rfl
  | cons a as ih => exact ih

lemma set_concat_self (pre : List String) (cur v : String) :
    (pre ++ [cur]).set pre.length v = pre ++ [v] := by
  induction pre with
  | nil => rfl
  | cons a as ih => simp [ih]

lemma processDeltas_open (skills : Skills) (ds : List (String × List String)) :
    ∀ (s : RunProcState) (pre : List String) (cur : String),
    s.msgStore = pre ++ [cur] → s.currentMessage = some pre.length →
    s.halted = false →
    (processEvents skills s
        (ds.map (fun d => OAIEvent.messageDelta (d.1 :: d.2)))).msgStore =
      pre ++ [cur ++ concatAll (ds.map Prod.fst)] ∧
    (processEvents skills s
        (ds.map (fun d => OAIEvent.messageDelta (d.1 :: d.2)))).logs.countP isWarn =
      s.logs.countP isWarn + ds.countP (fun d => !d.2.isEmpty) := by
  induction ds with
  | nil =>
    intro s pre cur hstore hopen hhalt
    simp [processEvents, hstore, concatAll]
  | cons d ds ih =>
    intro s pre cur hstore hopen hhalt
    have hstep : stepEvent skills s (.messageDelta (d.1 :: d.2)) =
        { s with
            msgStore := pre ++ [cur ++ d.1]
            logs := s.logs ++ (if d.2.isEmpty then [] else [.warnL "Unexpected content length"]) } := by
      cases hempty : d.2 with
      | nil =>
        simp [stepEvent, handleDelta, hhalt, hopen, hstore, getD_concat_self,
          set_concat_self]
      | cons e es =>
        simp [stepEvent, handleDelta, hhalt, hopen, hstore, getD_concat_self,
          set_concat_self, Nat.succ_lt_succ]
    have h := ih (stepEvent skills s (.messageDelta (d.1 :: d.2))) pre (cur ++ d.1)
      (by rw [hstep]) (by rw [hstep]; exact hopen) (by rw [hstep]; exact hhalt)
    refine ⟨?_, ?_⟩
    · have := h.1
      simp only [processEvents, List.map_cons, List.foldl_cons] at this ⊢
      rw [this]
      simp [concatAll, strAppend_assoc]
    · have := h.2
      rw [hstep] at this
      simp only [processEvents, List.map_cons, List.foldl_cons] at this ⊢
      rw [hstep]
      rw [this]
      cases hempty : d.2 with
      | nil => simp [hempty, isWarn]
      | cons e es => simp [hempty, isWarn, Nat.add_assoc, Nat.add_comm 1]

/-- Claim C10: for every sequence of deltas received while one message is
open, each delta contributes exactly its first fragment — the final
content of the single assembled message is the in-order concatenation of
the first fragments — and exactly the deltas that carried extra
fragments produce a warning; the extra fragments never reach the store. -/
theorem delta_keeps_first_fragment_only (skills : Skills)
    (ds : List (String × List String)) :
    (processEvents skills initRunState
        (OAIEvent.messageCreated :: ds.map (fun d => OAIEvent.messageDelta (d.1 :: d.2)))).msgStore =
      [concatAll (ds.map Prod.fst)] ∧
    (processEvents skills initRunState
        (OAIEvent.messageCreated :: ds.map (fun d => OAIEvent.messageDelta (d.1 :: d.2)))).logs.countP isWarn =
      ds.countP (fun d => !d.2.isEmpty) := by
  have h := processDeltas_open skills ds
    (stepEvent skills initRunState .messageCreated) [] "" rfl rfl rfl
  simp only [processEvents, List.foldl_cons] at h ⊢
  refine ⟨?_, ?_⟩
  · rw [h.1]
    simp [strEmpty_append]
  · rw [h.2]
    have hlogs : (stepEvent skills initRunState OAIEvent.messageCreated).logs = [] := rfl
    rw [hlogs]
    simp

lemma processToolCalls_all_function (skills : Skills) (calls : List ToolCall)
    (h : ∀ tc ∈ calls, tc.type = "function") :
    processToolCalls skills calls =
      (calls.map (fun tc =>
        { tool_call_id := tc.id, output := handleFunction skills tc.fname tc.fargs }), []) := by
  induction calls with
  | nil => rfl
  | cons tc rest ih =>
    have htc : tc.type = "function" := h tc (by simp)
    have hrest := ih (fun x hx => h x (by simp [hx]))
    simp [processToolCalls, hrest, htc]

/-- Claim C4: a `requires_action` payload of kind `submit_tool_outputs`
whose tool calls are all of kind `function` submits exactly one batch
holding one output per tool call, keyed by that call's id, each output
computed independently by `handleFunction` (the skill's result, or the
error payload built from the reason it threw); nothing terminal is
emitted and the loop is not halted, so lifecycle consumption resumes
after the submission. -/
theorem tool_failures_isolated (skills : Skills) (s : RunProcState)
    (a : RequiredAction) (hhalt : s.halted = false)
    (htype : a.actionType = "submit_tool_outputs")
    (hall : ∀ tc ∈ a.toolCalls, tc.type = "function")
    (hne : a.toolCalls ≠ []) :
    (stepEvent skills s (.runRequiresAction a)).submitted =
      s.submitted ++
        [a.toolCalls.map (fun tc =>
          { tool_call_id := tc.id, output := handleFunction skills tc.fname tc.fargs })] ∧
    (stepEvent skills s (.runRequiresAction a)).emitted = s.emitted ∧
    (stepEvent skills s (.runRequiresAction a)).halted = false := by
  have hpc := processToolCalls_all_function skills a.toolCalls hall
  have hempty : a.toolCalls.isEmpty = false := by
    cases hcs : a.toolCalls with
    | nil => exact absurd hcs hne
    | cons x xs => rfl
  refine ⟨?_, ?_, ?_⟩ <;>
    simp [stepEvent, onActionRequired, hhalt, htype, hempty, hpc]

/-- Witness for C4: from the initial run state, the two-call demo action
(one succeeding skill, one throwing skill) submits one batch with the
success payload for `call_1` and the error payload for `call_2`, emits
nothing and leaves the loop running. -/
theorem tool_failures_isolated_witness :
    (stepEvent demoSkills initRunState (.runRequiresAction demoAction)).submitted =
      [[{ tool_call_id := "call_1", output := .ok "42" },
        { tool_call_id := "call_2", output := .err "boom" }]] ∧
    (stepEvent demoSkills initRunState (.runRequiresAction demoAction)).emitted = [] ∧
    (stepEvent demoSkills initRunState (.runRequiresAction demoAction)).halted = false := by
  have h := tool_failures_isolated demoSkills initRunState demoAction rfl rfl
    (by decide) (by decide)
  exact h

lemma handleDelta_emitted (s : RunProcState) (c : DeltaContent) :
    (handleDelta s c).emitted = s.emitted := by
  cases hcm : s.currentMessage with
  | none =>
    cases c with
    | nil => simp [handleDelta, hcm]
    | cons a rest => cases rest <;> simp [handleDelta, hcm]
  | some i =>
    cases c with
    | nil => simp [handleDelta, hcm]
    | cons a rest => cases rest <;> simp [handleDelta, hcm]

lemma handleDelta_status (s : RunProcState) (c : DeltaContent) :
    (handleDelta s c).status = s.status := by
  cases hcm : s.currentMessage with
  | none =>
    cases c with
    | nil => simp [handleDelta, hcm]
    | cons a rest => cases rest <;> simp [handleDelta, hcm]
  | some i =>
    cases c with
    | nil => simp [handleDelta, hcm]
    | cons a rest => cases rest <;> simp [handleDelta, hcm]

lemma onActionRequired_emitted (skills : Skills) (s : RunProcState)
    (a : RequiredAction) : (onActionRequired skills s a).emitted = s.emitted := by
  by_cases h1 : a.actionType ≠ "submit_tool_outputs"
  · simp [onActionRequired, h1]
  · by_cases h2 : a.toolCalls.isEmpty <;> simp [onActionRequired, h1, h2]

lemma onActionRequired_status (skills : Skills) (s : RunProcState)
    (a : RequiredAction) : (onActionRequired skills s a).status = s.status := by
  by_cases h1 : a.actionType ≠ "submit_tool_outputs"
  · simp [onActionRequired, h1]
  · by_cases h2 : a.toolCalls.isEmpty <;> simp [onActionRequired, h1, h2]

lemma emitted_stepEvent (skills : Skills) (s : RunProcState) (e : OAIEvent) :
    ((stepEvent skills s e).emitted).length ≤
      s.emitted.length + (if isTerminalSignal e then 1 else 0) := by
  by_cases hh : s.halted = true
  · have hs : stepEvent skills s e = s := by simp [stepEvent, hh]
    rw [hs]
    exact Nat.le_add_right _ _
  · simp only [Bool.not_eq_true] at hh
    cases e with
    | runCreated rid => simp [stepEvent, hh, isTerminalSignal]
    | runInProgress => simp [stepEvent, hh, isTerminalSignal]
    | ignoredEvent => simp [stepEvent, hh, isTerminalSignal]
    | runCompleted => simp [stepEvent, hh, isTerminalSignal, onComplete]
    | runCancelled => simp [stepEvent, hh, isTerminalSignal]
    | messageCreated => simp [stepEvent, hh, isTerminalSignal]
    | messageDelta c => simp [stepEvent, hh, isTerminalSignal, handleDelta_emitted]
    | messageCompleted => simp [stepEvent, hh, isTerminalSignal]
    | runRequiresAction a =>
      simp [stepEvent, hh, isTerminalSignal, onActionRequired_emitted]
    | runFailed le => simp [stepEvent, hh, isTerminalSignal]
    | runExpired le => simp [stepEvent, hh, isTerminalSignal]
    | errorEvent m => simp [stepEvent, hh, isTerminalSignal]
    | endEvent => simp [stepEvent, hh, isTerminalSignal, onComplete]
    | unknownEvent n => simp [stepEvent, hh, isTerminalSignal]

lemma emitted_processEvents (skills : Skills) (evs : List OAIEvent) :
    ∀ s : RunProcState,
      ((processEvents skills s evs).emitted).length ≤
        s.emitted.length + evs.countP isTerminalSignal := by
  induction evs with
  | nil => intro s; simp [processEvents]
  | cons e rest ih =>
    intro s
    have h1 := emitted_stepEvent skills s e
    have h2 := ih (stepEvent skills s e)
    simp only [processEvents] at h2 ⊢
    rw [List.foldl_cons, List.countP_cons]
    by_cases ht : isTerminalSignal e <;> simp [ht] at h1 ⊢ <;> omega

/-- Claim C6, amended: the `#process` loop returns after the failure
arms and the end arm but falls through after run-completed and
run-cancelled, so when the payload sequence carries at most one
terminal signal, at most one terminal event is emitted over the Run's
lifetime. -/
theorem terminal_event_at_most_once_of_single_signal (skills : Skills)
    (evs : List OAIEvent) (h : evs.countP isTerminalSignal ≤ 1) :
    ((processEvents skills initRunState evs).emitted).length ≤ 1 := by
  have hg := emitted_processEvents skills evs initRunState
  have h0 : initRunState.emitted.length = 0 := rfl
  omega

/-- Witness for amended C6: a stream with one non-terminal and one
terminal payload emits at most one terminal event. -/
theorem terminal_event_at_most_once_witness :
    ([OAIEvent.runInProgress, OAIEvent.runCompleted].countP isTerminalSignal ≤ 1) ∧
    ((processEvents noSkills initRunState
        [OAIEvent.runInProgress, OAIEvent.runCompleted]).emitted).length ≤ 1 :=
  ⟨by decide,
   terminal_event_at_most_once_of_single_signal noSkills
     [OAIEvent.runInProgress, OAIEvent.runCompleted] (by decide)⟩

/-- Counterexample to C6 as stated: a stream carrying both the
run-completed signal and the end signal makes the Run emit the
`complete` terminal event twice (the run-completed arm does not return
from the loop, and the end arm calls the completion handler again on the
cleared batch). -/
theorem complete_event_fired_twice :
    (processEvents noSkills initRunState
        [OAIEvent.runCompleted, OAIEvent.endEvent]).emitted =
      [RunEmit.complete [], RunEmit.complete []] := rfl

lemma status_stepEvent (skills : Skills) (s : RunProcState) (e : OAIEvent) :
    (stepEvent skills s e).status = s.status := by
  by_cases hh : s.halted = true
  · simp [stepEvent, hh]
  · simp only [Bool.not_eq_true] at hh
    cases e with
    | messageDelta c => simp [stepEvent, hh, handleDelta_status]
    | runRequiresAction a => simp [stepEvent, hh, onActionRequired_status]
    | runCompleted => simp [stepEvent, hh, onComplete]
    | endEvent => simp [stepEvent, hh, onComplete]
    | _ => simp [stepEvent, hh]

/-- Claim C7 (evaluation of the code): the streaming `#process` loop
never assigns the `#status` field, so after every consumed payload
sequence the Run's read-only `status` is still its initial `queued` —
in particular it does not become `in_progress` after an in-progress
signal nor `failed` after a failure signal, contrary to the mirrored
last-observed-remote-status the spec describes. -/
theorem run_status_stuck_queued :
    (∀ (skills : Skills) (evs : List OAIEvent),
        (processEvents skills initRunState evs).status = "queued") ∧
    (processEvents noSkills initRunState [OAIEvent.runInProgress]).status ≠
      "in_progress" ∧
    (processEvents noSkills initRunState
        [OAIEvent.runFailed (some "boom")]).status ≠ "failed" := by
  have hgen : ∀ (skills : Skills) (evs : List OAIEvent) (s : RunProcState),
      (processEvents skills s evs).status = s.status := by
    intro skills evs
    induction evs with
    | nil => intro s; rfl
    | cons e rest ih =>
      intro s
      calc (processEvents skills s (e :: rest)).status
          = (stepEvent skills s e).status := ih (stepEvent skills s e)
        _ = s.status := status_stepEvent skills s e
  refine ⟨fun sk evs => hgen sk evs initRunState, ?_, ?_⟩
  · rw [hgen noSkills [OAIEvent.runInProgress] initRunState]
    decide
  · rw [hgen noSkills [OAIEvent.runFailed (some "boom")] initRunState]
    decide

/-- The teardown-relevant retention flags of the driver configuration. -/
structure CleanupConfig where
  keepThread : Bool
  keepAssistant : Bool
deriving DecidableEq, Repr

/-- One remote side effect attempted by `OpenAIDriver.#cleanup`. -/
inductive CleanupStep where
  | stopRun
  | deleteThread
  | deleteAssistant
deriving DecidableEq, Repr

/-- `OpenAIDriver.#cleanup` (src/driver.openai.js lines 213-241): stop
the active run if there is one, delete the thread unless `keepThread`,
delete the assistant unless `keepAssistant` — each remote call wrapped
in its own try/catch, so a failure (second component false) is only
logged and never prevents the later steps from being attempted. -/
def cleanup (cfg : CleanupConfig)
    (hasRun stopFails threadDelFails assistantDelFails : Bool) :
    List (CleanupStep × Bool) :=
  (if hasRun then [(.stopRun, !stopFails)] else []) ++
    (if !cfg.keepThread then [(.deleteThread, !threadDelFails)] else []) ++
    (if !cfg.keepAssistant then [(.deleteAssistant, !assistantDelFails)] else [])

/-- Claim C9: with `keepThread = true` and `keepAssistant = false`, the
thread deletion is never attempted and the assistant deletion is always
attempted — whether or not a run was active and whatever steps failed
before it. -/
theorem cleanup_keeps_thread_deletes_assistant
    (hasRun stopFails threadDelFails assistantDelFails : Bool) :
    ((cleanup ⟨true, false⟩ hasRun stopFails threadDelFails
        assistantDelFails).map Prod.fst).contains CleanupStep.deleteAssistant = true ∧
    ((cleanup ⟨true, false⟩ hasRun stopFails threadDelFails
        assistantDelFails).map Prod.fst).contains CleanupStep.deleteThread = false := by
  revert hasRun stopFails threadDelFails assistantDelFails
  decide

end AiswarmOpenAI
